import Mathlib

/-!
Verification of the OpenBlueLineEffect frame pipeline.

The development shallowly embeds the core of the repository:
* `geom.ts` — the `Point`, `Size` and `Rectangle` value types;
* `blueline.ts` — the magic-number scan of `OnFfmpegFramesOutputFinished`,
  the frame-count validation and its error message, the crop-rectangle
  initialisation, shrink-step computation, per-frame advance and line stroke
  of `DoEffectSingleFrame`, the `OnEffectError` error path, and the
  constructor's option validation and default filling;
* `color.ts` — `RgbToHexString`.

Byte buffers (`Buffer` / `Uint8Array`) are embedded as `List Nat`, and
JavaScript numbers as `Int` (pixel coordinates, which the code only ever
adds and subtracts) or `ℚ` (frame rates and durations, which are multiplied
and rounded).  All definitions are executable so that theorems can be
checked on concrete inputs.
-/

namespace BlueLine

/-! ## Geometry (`geom.ts`) -/

/-- `Point` from `geom.ts`: a location on a Cartesian plane. -/
structure Point where
  X : Int
  Y : Int
deriving DecidableEq, Repr

/-- `Size` from `geom.ts`: width and height of an object. -/
structure Size where
  Width : Int
  Height : Int
deriving DecidableEq, Repr

/-- `Rectangle` from `geom.ts`: a position together with a size. -/
structure Rectangle where
  Position : Point
  Size : Size
deriving DecidableEq, Repr

/-- The `X` getter of `Rectangle`. -/
def Rectangle.X (r : Rectangle) : Int := r.Position.X

/-- The `Y` getter of `Rectangle`. -/
def Rectangle.Y (r : Rectangle) : Int := r.Position.Y

/-- The `Width` getter of `Rectangle`. -/
def Rectangle.Width (r : Rectangle) : Int := r.Size.Width

/-- The `Height` getter of `Rectangle`. -/
def Rectangle.Height (r : Rectangle) : Int := r.Size.Height

/-! ## Codecs and magic numbers (`blueline.ts`) -/

/-- Magic number for JPEG files (`blueline.ts`). -/
def JPEG_FILE_MAGIC_NUMBER : List Nat := [0xff, 0xd8, 0xff]

/-- Magic number for PNG files (`blueline.ts`). -/
def PNG_FILE_MAGIC_NUMBER : List Nat := [0x89, 0x50, 0x4e, 0x47]

/-- The `FrameCodec` type of `blueline.ts`: `'mjpeg' | 'png'`. -/
inductive FrameCodec where
  | mjpeg
  | png
deriving DecidableEq, Repr

/-- The codec-dependent magic number chosen at the top of
`OnFfmpegFramesOutputFinished`. -/
def magicNumberFor : FrameCodec → List Nat
  | .mjpeg => JPEG_FILE_MAGIC_NUMBER
  | .png => PNG_FILE_MAGIC_NUMBER

/-- The `LineDirection` type of `blueline.ts`: `'left' | 'right' | 'up' | 'down'`. -/
inductive LineDirection where
  | left
  | right
  | up
  | down
deriving DecidableEq, Repr

/-! ## The magic-number scanner of `OnFfmpegFramesOutputFinished` -/

/-- Whether the pattern `pat` occurs in `buf` starting at byte offset `i`. -/
def matchAt (buf pat : List Nat) (i : Nat) : Bool :=
  pat.isPrefixOf (buf.drop i)

/-- Linear search for the first occurrence of `pat` in `buf` at an offset
`≥ i`, checking at most `fuel` offsets.  This is the search that
`Buffer.indexOf(magicNumber, offset)` performs. -/
def bufIndexOfAux (buf pat : List Nat) : Nat → Nat → Option Nat
  | 0, _ => none
  | fuel + 1, i => if matchAt buf pat i then some i else bufIndexOfAux buf pat fuel (i + 1)

/-- `buf.indexOf(pat, start)` of `blueline.ts` (with `none` for `-1`):
the least offset `≥ start` at which `pat` occurs in `buf`. -/
def bufIndexOf (buf pat : List Nat) (start : Nat) : Option Nat :=
  bufIndexOfAux buf pat (buf.length + 1 - start) start

/-- The `while (startIndex !== -1)` loop of `OnFfmpegFramesOutputFinished`
(`blueline.ts`): given a confirmed match at offset `start`, look for the next
match after `start + magic.length`; if one exists at `e`, emit
`stdout.slice(start, e)` and continue from `e`, otherwise emit
`stdout.slice(start)` and stop.  `fuel` bounds the number of iterations; the
caller passes enough for the loop to run to completion. -/
def scanLoopAux (buf magic : List Nat) : Nat → Nat → List (List Nat)
  | 0, _ => []
  | fuel + 1, start =>
    match bufIndexOf buf magic (start + magic.length) with
    | some e => (buf.drop start).take (e - start) :: scanLoopAux buf magic fuel e
    | none => [buf.drop start]

/-- The frame extraction scan of `OnFfmpegFramesOutputFinished`
(`blueline.ts`): find the first magic-number match; if there is none the
result is empty, otherwise run the slicing loop from the first match. -/
def extractFrameImages (buf magic : List Nat) : List (List Nat) :=
  match bufIndexOf buf magic 0 with
  | none => []
  | some s => scanLoopAux buf magic (buf.length + 1) s

/-- The byte offsets at which the images of a concatenated image list start
inside the concatenation. -/
def startOffsets : List (List Nat) → List Nat
  | [] => []
  | img :: rest => 0 :: (startOffsets rest).map (fun o => img.length + o)

/-! ## Basic facts about the scanner -/

theorem isPrefixOf_true_iff {l₁ l₂ : List Nat} :
    l₁.isPrefixOf l₂ = true ↔ l₁ <+: l₂ :=
  List.isPrefixOf_iff_prefix

theorem matchAt_false_of_ge {buf pat : List Nat} (hp : 0 < pat.length)
    {i : Nat} (hi : buf.length ≤ i) : matchAt buf pat i = false := by
  have hdrop : buf.drop i = [] := List.drop_eq_nil_of_le hi
  unfold matchAt
  rw [hdrop]
  cases pat with
  | nil => simp at hp
  | cons a l => rfl

theorem bufIndexOfAux_eq_some {buf pat : List Nat} {e : Nat} :
    ∀ {fuel i : Nat}, i ≤ e → e < i + fuel → matchAt buf pat e = true →
      (∀ j, i ≤ j → j < e → matchAt buf pat j = false) →
      bufIndexOfAux buf pat fuel i = some e := by
  intro fuel
  induction fuel with
  | zero => intro i h₁ h₂ _ _; omega
  | succ f ih =>
    intro i h₁ h₂ hm hmin
    unfold bufIndexOfAux
    rcases Nat.eq_or_lt_of_le h₁ with heq | hlt
    · subst heq
      simp [hm]
    · have hfalse : matchAt buf pat i = false := hmin i le_rfl hlt
      simp only [hfalse]
      simp only [Bool.false_eq_true, if_false]
      exact ih hlt (by omega) hm (fun j hj₁ hj₂ => hmin j (by omega) hj₂)

theorem bufIndexOfAux_eq_none {buf pat : List Nat} :
    ∀ {fuel i : Nat}, (∀ j, i ≤ j → j < i + fuel → matchAt buf pat j = false) →
      bufIndexOfAux buf pat fuel i = none := by
  intro fuel
  induction fuel with
  | zero => intro i _; rfl
  | succ f ih =>
    intro i hmin
    unfold bufIndexOfAux
    have hfalse : matchAt buf pat i = false := hmin i le_rfl (by omega)
    simp only [hfalse, Bool.false_eq_true, if_false]
    exact ih (fun j hj₁ hj₂ => hmin j (by omega) (by omega))

theorem bufIndexOf_eq_some {buf pat : List Nat} {start e : Nat}
    (h₁ : start ≤ e) (h₂ : e ≤ buf.length) (hm : matchAt buf pat e = true)
    (hmin : ∀ j, start ≤ j → j < e → matchAt buf pat j = false) :
    bufIndexOf buf pat start = some e :=
  bufIndexOfAux_eq_some h₁ (by omega) hm hmin

theorem bufIndexOf_eq_none {buf pat : List Nat} {start : Nat}
    (hmin : ∀ j, start ≤ j → matchAt buf pat j = false) :
    bufIndexOf buf pat start = none :=
  bufIndexOfAux_eq_none (fun j hj₁ _ => hmin j hj₁)

theorem magicNumberFor_length_pos (codec : FrameCodec) :
    0 < (magicNumberFor codec).length := by
  cases codec <;> decide

theorem length_le_flatten_length (imgs : List (List Nat))
    (h : ∀ img ∈ imgs, img ≠ []) : imgs.length ≤ imgs.flatten.length := by
  induction imgs with
  | nil => simp
  | cons img rest ih =>
    have himg : img ≠ [] := h img (List.mem_cons_self img rest)
    have hrest : rest.length ≤ rest.flatten.length :=
      ih (fun i hi => h i (List.mem_cons_of_mem img hi))
    have : 0 < img.length := List.length_pos.mpr himg
    simp only [List.length_cons, List.flatten_cons, List.length_append]
    omega

/-- The slicing loop recovers the image list exactly, provided the buffer
from `start` on is the concatenation of the images, every image starts with
the magic number, and the magic number matches only at image boundaries. -/
theorem scanLoopAux_flatten (buf magic : List Nat) (hm : 0 < magic.length) :
    ∀ (imgs : List (List Nat)) (start fuel : Nat),
      imgs ≠ [] →
      buf.drop start = imgs.flatten →
      (∀ img ∈ imgs, magic.isPrefixOf img = true) →
      (∀ i, start ≤ i → matchAt buf magic i = true → (i - start) ∈ startOffsets imgs) →
      imgs.length ≤ fuel →
      scanLoopAux buf magic fuel start = imgs := by
  intro imgs
  induction imgs with
  | nil => intro start fuel hne; exact absurd rfl hne
  | cons img rest ih =>
    intro start fuel _ hdrop hpre hsep hfuel
    obtain ⟨f, rfl⟩ : ∃ f, fuel = f + 1 := by
      cases fuel with
      | zero => simp at hfuel
      | succ f => exact ⟨f, rfl⟩
    have himg : magic.isPrefixOf img = true := hpre img (List.mem_cons_self img rest)
    have himglen : magic.length ≤ img.length :=
      (isPrefixOf_true_iff.mp himg).length_le
    cases rest with
    | nil =>
      -- A single image remains: the second search finds nothing and the
      -- tail of the buffer is emitted as the final image.
      have hdrop' : buf.drop start = img := by simpa using hdrop
      have hnone : bufIndexOf buf magic (start + magic.length) = none := by
        apply bufIndexOf_eq_none
        intro j hj
        cases hmt : matchAt buf magic j with
        | false => rfl
        | true =>
          exfalso
          have := hsep j (by omega) hmt
          simp only [startOffsets, List.map_nil, List.mem_singleton] at this
          omega
      unfold scanLoopAux
      simp only [hnone, hdrop']
    | cons img₂ rest₂ =>
      have himg₂ : magic.isPrefixOf img₂ = true :=
        hpre img₂ (List.mem_cons_of_mem img (List.mem_cons_self img₂ rest₂))
      have himg₂len : magic.length ≤ img₂.length :=
        (isPrefixOf_true_iff.mp himg₂).length_le
      have hdrop₁ : buf.drop start = img ++ (img₂ :: rest₂).flatten := by
        simpa using hdrop
      -- the offset of the second image
      set e : Nat := start + img.length with he
      have hlen : buf.length - start = img.length + (img₂ :: rest₂).flatten.length := by
        have := congrArg List.length hdrop₁
        simpa using this
      have hflatlen : img₂.length ≤ (img₂ :: rest₂).flatten.length := by
        simp only [List.flatten_cons, List.length_append]
        omega
      have he_le : e ≤ buf.length := by omega
      have hdrope : buf.drop e = (img₂ :: rest₂).flatten := by
        have h1 : (buf.drop start).drop img.length = buf.drop (start + img.length) :=
          List.drop_drop img.length start buf
        rw [← he] at h1
        rw [← h1, hdrop₁, List.drop_left]
      have hmatche : matchAt buf magic e = true := by
        unfold matchAt
        rw [hdrope]
        apply isPrefixOf_true_iff.mpr
        exact (isPrefixOf_true_iff.mp himg₂).trans
          (List.prefix_append img₂ rest₂.flatten)
      have hsome : bufIndexOf buf magic (start + magic.length) = some e := by
        apply bufIndexOf_eq_some (by omega) he_le hmatche
        intro j hj₁ hj₂
        cases hmt : matchAt buf magic j with
        | false => rfl
        | true =>
          exfalso
          have hmem := hsep j (by omega) hmt
          simp only [startOffsets, List.mem_cons, List.mem_map] at hmem
          rcases hmem with h0 | ⟨o, _, ho⟩
          · omega
          · omega
      have htake : (buf.drop start).take (e - start) = img := by
        rw [hdrop₁]
        have : e - start = img.length := by omega
        rw [this, List.take_left]
      unfold scanLoopAux
      simp only [hsome]
      rw [htake]
      congr 1
      apply ih e f (by simp)
      · exact hdrope
      · exact fun i hi => hpre i (List.mem_cons_of_mem img hi)
      · intro i hi hmt
        have hmem := hsep i (by omega) hmt
        simp only [startOffsets, List.mem_cons, List.mem_map] at hmem
        rcases hmem with h0 | ⟨o, homem, ho⟩
        · omega
        · have hio : i - e = o := by omega
          rw [hio]
          simp only [startOffsets, List.mem_cons, List.mem_map]
          exact homem
      · simp at hfuel ⊢
        omega

/-- The full extraction scan recovers the image list exactly. -/
theorem extractFrameImages_flatten (magic : List Nat) (hm : 0 < magic.length)
    (imgs : List (List Nat))
    (hpre : ∀ img ∈ imgs, magic.isPrefixOf img = true)
    (hsep : ∀ i, i < imgs.flatten.length →
      matchAt imgs.flatten magic i = true → i ∈ startOffsets imgs) :
    extractFrameImages imgs.flatten magic = imgs := by
  cases imgs with
  | nil =>
    have hnone : bufIndexOf ([] : List Nat) magic 0 = none := by
      apply bufIndexOf_eq_none
      intro j _
      exact matchAt_false_of_ge hm (by simp)
    unfold extractFrameImages
    simp only [List.flatten_nil]
    rw [hnone]
  | cons img rest =>
    set buf : List Nat := ((img :: rest).flatten : List Nat) with hbuf
    have hsep' : ∀ i, matchAt buf magic i = true → i ∈ startOffsets (img :: rest) := by
      intro i hmt
      by_cases hi : i < buf.length
      · exact hsep i hi hmt
      · rw [matchAt_false_of_ge hm (by omega)] at hmt
        exact absurd hmt (by simp)
    have himg : magic.isPrefixOf img = true := hpre img (List.mem_cons_self img rest)
    have hmatch0 : matchAt buf magic 0 = true := by
      unfold matchAt
      rw [List.drop_zero, hbuf]
      apply isPrefixOf_true_iff.mpr
      exact (isPrefixOf_true_iff.mp himg).trans (List.prefix_append img rest.flatten)
    have hsome : bufIndexOf buf magic 0 = some 0 :=
      bufIndexOf_eq_some (Nat.le_refl 0) (by omega) hmatch0 (fun j hj₁ hj₂ => by omega)
    have hne : ∀ i ∈ (img :: rest), i ≠ ([] : List Nat) := by
      intro i hi
      have hle := (isPrefixOf_true_iff.mp (hpre i hi)).length_le
      intro hcon
      rw [hcon] at hle
      simp only [List.length_nil, Nat.le_zero] at hle
      omega
    unfold extractFrameImages
    simp only [hsome]
    refine scanLoopAux_flatten buf magic hm (img :: rest) 0 (buf.length + 1)
      (by simp) (by simp [hbuf]) hpre ?_ ?_
    · intro i _ hmt
      simpa using hsep' i hmt
    · have h1 := length_le_flatten_length (img :: rest) hne
      have h2 : buf.length = (img :: rest).flatten.length := by rw [hbuf]
      omega

/-- C1: For every input buffer that consists of exactly `k` concatenated
still images (`k ≥ 0`) with no padding between them — each image starting
with the codec's magic number, and the magic number matching nowhere except
at the image start offsets — the frame-extraction scan of
`OnFfmpegFramesOutputFinished` produces exactly `k` frame buffers, in order,
each byte-identical to the corresponding source image's span; moreover any
buffer with zero magic-number matches yields the empty list rather than an
error. -/
theorem extraction_recovers_concatenated_images :
    (∀ (codec : FrameCodec) (imgs : List (List Nat)),
      (∀ img ∈ imgs, (magicNumberFor codec).isPrefixOf img = true) →
      (∀ i, i < imgs.flatten.length →
        matchAt imgs.flatten (magicNumberFor codec) i = true → i ∈ startOffsets imgs) →
      extractFrameImages imgs.flatten (magicNumberFor codec) = imgs) ∧
    (∀ (codec : FrameCodec) (buf : List Nat),
      (∀ i, i < buf.length → matchAt buf (magicNumberFor codec) i = false) →
      extractFrameImages buf (magicNumberFor codec) = []) := by
  constructor
  · intro codec imgs hpre hsep
    exact extractFrameImages_flatten (magicNumberFor codec)
      (magicNumberFor_length_pos codec) imgs hpre hsep
  · intro codec buf hnomatch
    have hnone : bufIndexOf buf (magicNumberFor codec) 0 = none := by
      apply bufIndexOf_eq_none
      intro j _
      by_cases hj : j < buf.length
      · exact hnomatch j hj
      · exact matchAt_false_of_ge (magicNumberFor_length_pos codec) (by omega)
    unfold extractFrameImages
    rw [hnone]

theorem extraction_recovers_concatenated_images_witness :
    extractFrameImages
        ([[0xff, 0xd8, 0xff, 7], [0xff, 0xd8, 0xff, 9, 9, 9]].flatten)
        (magicNumberFor .mjpeg)
      = [[0xff, 0xd8, 0xff, 7], [0xff, 0xd8, 0xff, 9, 9, 9]] ∧
    extractFrameImages [1, 2, 3, 4] (magicNumberFor .mjpeg) = [] :=
  ⟨extraction_recovers_concatenated_images.1 .mjpeg
      [[0xff, 0xd8, 0xff, 7], [0xff, 0xd8, 0xff, 9, 9, 9]] (by decide) (by decide),
    extraction_recovers_concatenated_images.2 .mjpeg [1, 2, 3, 4] (by decide)⟩

/-! ## Crop geometry of `DoEffectSingleFrame` (`blueline.ts`) -/

/-- `Math.ceil(a / n)` for an integer numerator and a natural denominator:
the ceiling of the exact rational quotient.  The integer expression
`-((-a) / n)` computes this ceiling exactly; `jsCeilDiv_eq_ceil` below
certifies the equality with `⌈a / n⌉`. -/
def jsCeilDiv (a : ℤ) (n : ℕ) : ℤ := -((-a) / (n : ℤ))

theorem jsCeilDiv_eq_ceil (a : ℤ) (n : ℕ) :
    jsCeilDiv a n = ⌈(a : ℚ) / (n : ℚ)⌉ := by
  unfold jsCeilDiv
  have h1 : ((a : ℚ)) / (n : ℚ) = -(((-a : ℤ) : ℚ) / (n : ℚ)) := by
    push_cast
    ring
  rw [h1, Int.ceil_neg, Rat.floor_intCast_div_natCast]

/-- `this.totalFrames = Math.ceil(this.options.fps * this.options.length)`
from `Generate` (`blueline.ts`). -/
def totalFramesOf (fps length : ℚ) : ℤ := ⌈fps * length⌉

/-- The shrink-step computation performed once on the first frame in
`DoEffectSingleFrame` (`blueline.ts`): starting from `new Size()` (zero
width and height), the axis selected by the line direction is set to
`Math.ceil(imageAxis / totalFrames)`. -/
def computeShrinkSize (dir : LineDirection) (imageWidth imageHeight : Int)
    (totalFrames : ℕ) : Size :=
  match dir with
  | .left | .right => { Width := jsCeilDiv imageWidth totalFrames, Height := 0 }
  | .up | .down => { Width := 0, Height := jsCeilDiv imageHeight totalFrames }

/-- The crop rectangle right after first-frame initialisation
(`blueline.ts`): `new Rectangle()` whose `Size` is then set to
`new Size(image.width, image.height)`, i.e. position `(0, 0)` and the full
frame size. -/
def initialCropRect (w h : Int) : Rectangle :=
  { Position := { X := 0, Y := 0 }, Size := { Width := w, Height := h } }

/-- The per-frame advance of the crop rectangle: the
`switch (this.options.lineDirection)` at the end of `DoEffectSingleFrame`
(`blueline.ts`). -/
def advanceCropRect (dir : LineDirection) (shrink : Size) (r : Rectangle) :
    Rectangle :=
  match dir with
  | .left => { r with Size := { r.Size with Width := r.Size.Width - shrink.Width } }
  | .right =>
    { Position := { r.Position with X := r.Position.X + shrink.Width },
      Size := { r.Size with Width := r.Size.Width - shrink.Width } }
  | .up => { r with Size := { r.Size with Height := r.Size.Height - shrink.Height } }
  | .down =>
    { Position := { r.Position with Y := r.Position.Y + shrink.Height },
      Size := { r.Size with Height := r.Size.Height - shrink.Height } }

/-- The line stroked over the output canvas on one frame: the
`moveTo`/`lineTo` pair from the `switch (this.options.lineDirection)` in the
middle of `DoEffectSingleFrame` (`blueline.ts`), read off the crop rectangle
*before* that frame's advance step. -/
def strokeLine (dir : LineDirection) (r : Rectangle) :
    (Int × Int) × (Int × Int) :=
  match dir with
  | .left => ((r.Width, 0), (r.Width, r.Height))
  | .right => ((r.X, 0), (r.X, r.Height))
  | .up => ((0, r.Height), (r.Width, r.Height))
  | .down => ((0, r.Y), (r.Width, r.Y))

/-- The crop rectangle before frame `n`: the initial rectangle advanced `n`
times. -/
def cropRectAfter (dir : LineDirection) (shrink : Size) (r0 : Rectangle) :
    Nat → Rectangle
  | 0 => r0
  | n + 1 => advanceCropRect dir shrink (cropRectAfter dir shrink r0 n)

/-- The size component on the axis the direction moves along. -/
def movingSize (dir : LineDirection) (r : Rectangle) : Int :=
  match dir with
  | .left | .right => r.Width
  | .up | .down => r.Height

/-- The size component on the axis orthogonal to the direction. -/
def orthoSize (dir : LineDirection) (r : Rectangle) : Int :=
  match dir with
  | .left | .right => r.Height
  | .up | .down => r.Width

/-- The position component that the direction's advance never touches. -/
def crossPos (dir : LineDirection) (r : Rectangle) : Int :=
  match dir with
  | .left | .right => r.Y
  | .up | .down => r.X

/-- The shrink-step component on the moving axis. -/
def movingShrink (dir : LineDirection) (s : Size) : Int :=
  match dir with
  | .left | .right => s.Width
  | .up | .down => s.Height

/-! ### Closed forms of the advanced rectangle -/

theorem cropRectAfter_left (s : Size) (r0 : Rectangle) (n : ℕ) :
    (cropRectAfter .left s r0 n).X = r0.X ∧
    (cropRectAfter .left s r0 n).Y = r0.Y ∧
    (cropRectAfter .left s r0 n).Width = r0.Width - n * s.Width ∧
    (cropRectAfter .left s r0 n).Height = r0.Height := by
  induction n with
  | zero => simp [cropRectAfter]
  | succ n ih =>
    obtain ⟨h1, h2, h3, h4⟩ := ih
    unfold cropRectAfter advanceCropRect
    refine ⟨h1, h2, ?_, h4⟩
    simp only [Rectangle.Width] at h3 ⊢
    rw [h3]
    push_cast
    ring

theorem cropRectAfter_right (s : Size) (r0 : Rectangle) (n : ℕ) :
    (cropRectAfter .right s r0 n).X = r0.X + n * s.Width ∧
    (cropRectAfter .right s r0 n).Y = r0.Y ∧
    (cropRectAfter .right s r0 n).Width = r0.Width - n * s.Width ∧
    (cropRectAfter .right s r0 n).Height = r0.Height := by
  induction n with
  | zero => simp [cropRectAfter]
  | succ n ih =>
    obtain ⟨h1, h2, h3, h4⟩ := ih
    unfold cropRectAfter advanceCropRect
    refine ⟨?_, h2, ?_, h4⟩
    · simp only [Rectangle.X] at h1 ⊢
      rw [h1]
      push_cast
      ring
    · simp only [Rectangle.Width] at h3 ⊢
      rw [h3]
      push_cast
      ring

theorem cropRectAfter_up (s : Size) (r0 : Rectangle) (n : ℕ) :
    (cropRectAfter .up s r0 n).X = r0.X ∧
    (cropRectAfter .up s r0 n).Y = r0.Y ∧
    (cropRectAfter .up s r0 n).Width = r0.Width ∧
    (cropRectAfter .up s r0 n).Height = r0.Height - n * s.Height := by
  induction n with
  | zero => simp [cropRectAfter]
  | succ n ih =>
    obtain ⟨h1, h2, h3, h4⟩ := ih
    unfold cropRectAfter advanceCropRect
    refine ⟨h1, h2, h3, ?_⟩
    simp only [Rectangle.Height] at h4 ⊢
    rw [h4]
    push_cast
    ring

theorem cropRectAfter_down (s : Size) (r0 : Rectangle) (n : ℕ) :
    (cropRectAfter .down s r0 n).X = r0.X ∧
    (cropRectAfter .down s r0 n).Y = r0.Y + n * s.Height ∧
    (cropRectAfter .down s r0 n).Width = r0.Width ∧
    (cropRectAfter .down s r0 n).Height = r0.Height - n * s.Height := by
  induction n with
  | zero => simp [cropRectAfter]
  | succ n ih =>
    obtain ⟨h1, h2, h3, h4⟩ := ih
    unfold cropRectAfter advanceCropRect
    refine ⟨h1, ?_, h3, ?_⟩
    · simp only [Rectangle.Y] at h2 ⊢
      rw [h2]
      push_cast
      ring
    · simp only [Rectangle.Height] at h4 ⊢
      rw [h4]
      push_cast
      ring

theorem le_mul_jsCeilDiv (a : ℤ) (n : ℕ) (hn : 1 ≤ n) :
    a ≤ (n : ℤ) * jsCeilDiv a n := by
  rw [jsCeilDiv_eq_ceil]
  have hn' : (0 : ℚ) < (n : ℚ) := by exact_mod_cast hn
  have h1 : ((a : ℚ)) / (n : ℚ) ≤ ((⌈(a : ℚ) / (n : ℚ)⌉ : ℤ) : ℚ) := Int.le_ceil _
  have h2 : (a : ℚ) ≤ (n : ℚ) * ((⌈(a : ℚ) / (n : ℚ)⌉ : ℤ) : ℚ) := by
    calc (a : ℚ) = (n : ℚ) * ((a : ℚ) / (n : ℚ)) := by field_simp
    _ ≤ (n : ℚ) * ((⌈(a : ℚ) / (n : ℚ)⌉ : ℤ) : ℚ) :=
      mul_le_mul_of_nonneg_left h1 (le_of_lt hn')
  exact_mod_cast h2

theorem one_le_jsCeilDiv (a : ℤ) (n : ℕ) (ha : 1 ≤ a) (hn : 1 ≤ n) :
    1 ≤ jsCeilDiv a n := by
  rw [jsCeilDiv_eq_ceil]
  have hpos : (0 : ℚ) < (a : ℚ) / (n : ℚ) :=
    div_pos (by exact_mod_cast ha) (by exact_mod_cast hn)
  exact Int.ceil_pos.mpr hpos

/-- C3: a single advance of the crop rectangle performs exactly the
per-direction transition of `DoEffectSingleFrame`: `left` only shrinks the
width; `right` shrinks the width and moves `x` right by the same step; `up`
only shrinks the height; `down` shrinks the height and moves `y` down by the
same step; in every case no other field of the rectangle changes. -/
theorem advance_transitions_per_direction (s : Size) (r : Rectangle) :
    ((advanceCropRect .left s r).Width = r.Width - s.Width ∧
      (advanceCropRect .left s r).X = r.X ∧
      (advanceCropRect .left s r).Y = r.Y ∧
      (advanceCropRect .left s r).Height = r.Height) ∧
    ((advanceCropRect .right s r).Width = r.Width - s.Width ∧
      (advanceCropRect .right s r).X = r.X + s.Width ∧
      (advanceCropRect .right s r).Y = r.Y ∧
      (advanceCropRect .right s r).Height = r.Height) ∧
    ((advanceCropRect .up s r).Height = r.Height - s.Height ∧
      (advanceCropRect .up s r).X = r.X ∧
      (advanceCropRect .up s r).Y = r.Y ∧
      (advanceCropRect .up s r).Width = r.Width) ∧
    ((advanceCropRect .down s r).Height = r.Height - s.Height ∧
      (advanceCropRect .down s r).Y = r.Y + s.Height ∧
      (advanceCropRect .down s r).X = r.X ∧
      (advanceCropRect .down s r).Width = r.Width) :=
  ⟨⟨rfl, rfl, rfl, rfl⟩, ⟨rfl, rfl, rfl, rfl⟩, ⟨rfl, rfl, rfl, rfl⟩,
    ⟨rfl, rfl, rfl, rfl⟩⟩

/-- C2: with `totalFrames = ceil(fps * length)` (positive for positive `fps`
and `length`) and the shrink step computed once from the first frame,
applying the per-frame advance `totalFrames` times from the full-frame
rectangle drives the moving axis dimension to `≤ 0` — with its exact value
`initial - totalFrames * step`, so no clamping to zero occurs and the value
may go negative — while the orthogonal size component and the position
component unaffected by the direction retain their initial values. -/
theorem total_frames_drive_moving_axis_nonpositive
    (fps len : ℚ) (hf : 0 < fps) (hl : 0 < len)
    (N : ℕ) (hN : (N : ℤ) = totalFramesOf fps len)
    (w h : ℤ) (hw : 0 ≤ w) (hh : 0 ≤ h) (dir : LineDirection) :
    1 ≤ N ∧
    movingSize dir
        (cropRectAfter dir (computeShrinkSize dir w h N) (initialCropRect w h) N)
      = movingSize dir (initialCropRect w h)
        - N * movingShrink dir (computeShrinkSize dir w h N) ∧
    movingSize dir
        (cropRectAfter dir (computeShrinkSize dir w h N) (initialCropRect w h) N)
      ≤ 0 ∧
    orthoSize dir
        (cropRectAfter dir (computeShrinkSize dir w h N) (initialCropRect w h) N)
      = orthoSize dir (initialCropRect w h) ∧
    crossPos dir
        (cropRectAfter dir (computeShrinkSize dir w h N) (initialCropRect w h) N)
      = crossPos dir (initialCropRect w h) := by
  have hN1 : 1 ≤ N := by
    have hpos : 0 < totalFramesOf fps len := Int.ceil_pos.mpr (mul_pos hf hl)
    omega
  refine ⟨hN1, ?_⟩
  cases dir with
  | left =>
    obtain ⟨h1, h2, h3, h4⟩ :=
      cropRectAfter_left (computeShrinkSize .left w h N) (initialCropRect w h) N
    refine ⟨?_, ?_, ?_, ?_⟩
    · simpa [movingSize, movingShrink] using h3
    · have hkey : w ≤ (N : ℤ) * jsCeilDiv w N := le_mul_jsCeilDiv w N hN1
      simp only [movingSize]
      rw [h3]
      simp only [initialCropRect, Rectangle.Width, computeShrinkSize]
      omega
    · simpa [orthoSize] using h4
    · simpa [crossPos] using h2
  | right =>
    obtain ⟨h1, h2, h3, h4⟩ :=
      cropRectAfter_right (computeShrinkSize .right w h N) (initialCropRect w h) N
    refine ⟨?_, ?_, ?_, ?_⟩
    · simpa [movingSize, movingShrink] using h3
    · have hkey : w ≤ (N : ℤ) * jsCeilDiv w N := le_mul_jsCeilDiv w N hN1
      simp only [movingSize]
      rw [h3]
      simp only [initialCropRect, Rectangle.Width, computeShrinkSize]
      omega
    · simpa [orthoSize] using h4
    · simpa [crossPos] using h2
  | up =>
    obtain ⟨h1, h2, h3, h4⟩ :=
      cropRectAfter_up (computeShrinkSize .up w h N) (initialCropRect w h) N
    refine ⟨?_, ?_, ?_, ?_⟩
    · simpa [movingSize, movingShrink] using h4
    · have hkey : h ≤ (N : ℤ) * jsCeilDiv h N := le_mul_jsCeilDiv h N hN1
      simp only [movingSize]
      rw [h4]
      simp only [initialCropRect, Rectangle.Height, computeShrinkSize]
      omega
    · simpa [orthoSize] using h3
    · simpa [crossPos] using h1
  | down =>
    obtain ⟨h1, h2, h3, h4⟩ :=
      cropRectAfter_down (computeShrinkSize .down w h N) (initialCropRect w h) N
    refine ⟨?_, ?_, ?_, ?_⟩
    · simpa [movingSize, movingShrink] using h4
    · have hkey : h ≤ (N : ℤ) * jsCeilDiv h N := le_mul_jsCeilDiv h N hN1
      simp only [movingSize]
      rw [h4]
      simp only [initialCropRect, Rectangle.Height, computeShrinkSize]
      omega
    · simpa [orthoSize] using h3
    · simpa [crossPos] using h1

theorem total_frames_drive_moving_axis_nonpositive_witness :
    1 ≤ 250 ∧
    movingSize .right
        (cropRectAfter .right (computeShrinkSize .right 100 100 250)
          (initialCropRect 100 100) 250)
      = movingSize .right (initialCropRect 100 100)
        - 250 * movingShrink .right (computeShrinkSize .right 100 100 250) ∧
    movingSize .right
        (cropRectAfter .right (computeShrinkSize .right 100 100 250)
          (initialCropRect 100 100) 250)
      ≤ 0 ∧
    orthoSize .right
        (cropRectAfter .right (computeShrinkSize .right 100 100 250)
          (initialCropRect 100 100) 250)
      = orthoSize .right (initialCropRect 100 100) ∧
    crossPos .right
        (cropRectAfter .right (computeShrinkSize .right 100 100 250)
          (initialCropRect 100 100) 250)
      = crossPos .right (initialCropRect 100 100) :=
  total_frames_drive_moving_axis_nonpositive 25 10 (by decide) (by decide)
    250 (by rw [totalFramesOf]; norm_num) 100 100 (by decide) (by decide) .right

/-- C4: for direction `right`, the x-coordinate at which the line is
stroked on frame `i` equals the crop rectangle's x-coordinate before frame
`i`'s advance step, and (for frame width `≥ 1` and `totalFrames ≥ 1`) it is
strictly increasing from each frame to the next while `totalFrames` has not
been reached. -/
theorem right_line_x_pre_advance_and_increasing
    (w h : ℤ) (hw : 1 ≤ w) (N i : ℕ) (hN : 1 ≤ N) (hi : i + 1 < N) :
    (strokeLine .right
        (cropRectAfter .right (computeShrinkSize .right w h N)
          (initialCropRect w h) i)).1.1
      = (cropRectAfter .right (computeShrinkSize .right w h N)
          (initialCropRect w h) i).X ∧
    (strokeLine .right
        (cropRectAfter .right (computeShrinkSize .right w h N)
          (initialCropRect w h) i)).1.1
      < (strokeLine .right
          (cropRectAfter .right (computeShrinkSize .right w h N)
            (initialCropRect w h) (i + 1))).1.1 := by
  constructor
  · rfl
  · have hstep : 1 ≤ jsCeilDiv w N := one_le_jsCeilDiv w N hw hN
    obtain ⟨hx1, _, _, _⟩ :=
      cropRectAfter_right (computeShrinkSize .right w h N) (initialCropRect w h) i
    obtain ⟨hx2, _, _, _⟩ :=
      cropRectAfter_right (computeShrinkSize .right w h N) (initialCropRect w h) (i + 1)
    show (cropRectAfter .right (computeShrinkSize .right w h N)
        (initialCropRect w h) i).X
      < (cropRectAfter .right (computeShrinkSize .right w h N)
        (initialCropRect w h) (i + 1)).X
    rw [hx1, hx2]
    simp only [initialCropRect, Rectangle.X, computeShrinkSize]
    have hring : ((i : ℤ) + 1) * jsCeilDiv w N
        = (i : ℤ) * jsCeilDiv w N + jsCeilDiv w N := by ring
    push_cast
    rw [hring]
    omega

theorem right_line_x_pre_advance_and_increasing_witness :
    (strokeLine .right
        (cropRectAfter .right (computeShrinkSize .right 100 50 10)
          (initialCropRect 100 50) 3)).1.1
      = (cropRectAfter .right (computeShrinkSize .right 100 50 10)
          (initialCropRect 100 50) 3).X ∧
    (strokeLine .right
        (cropRectAfter .right (computeShrinkSize .right 100 50 10)
          (initialCropRect 100 50) 3)).1.1
      < (strokeLine .right
          (cropRectAfter .right (computeShrinkSize .right 100 50 10)
            (initialCropRect 100 50) (3 + 1))).1.1 :=
  right_line_x_pre_advance_and_increasing 100 50 (by decide) 10 3 (by decide)
    (by decide)

/-! ## `OnFfmpegFramesOutputFinished`: frame-count validation (`blueline.ts`) -/

/-- The template literal passed to `this.errorHandler` when fewer frames
were extracted than `totalFrames` (`blueline.ts`). -/
def notEnoughFramesMsg (totalFrames actual : Nat) : String :=
  "Not enough frames were exported to fulfill the length of the effect. Expected "
    ++ toString totalFrames ++ " but got " ++ toString actual ++ ".\n"
    ++ "Specify effect length with the -l argument."

/-- The observable outcome of `OnFfmpegFramesOutputFinished`: the frame
buffers stored in `this.frameImages`, the messages passed to
`this.errorHandler`, and whether control continued into `DoEffect`. -/
structure FramesFinishedResult where
  frameImages : List (List Nat)
  errorCalls : List String
  proceedsToEffect : Bool
deriving DecidableEq, Repr

/-- `OnFfmpegFramesOutputFinished` (`blueline.ts`): rethrow a process
error; otherwise slice `stdout` at the codec's magic numbers, report
through the error handler when fewer images than `totalFrames` were found,
and continue into `DoEffect` with whatever frames were found. -/
def OnFfmpegFramesOutputFinished (codec : FrameCodec) (totalFrames : Nat)
    (error : Option String) (stdout : List Nat) :
    Except String FramesFinishedResult :=
  match error with
  | some e => .error e
  | none =>
    let frameImages := extractFrameImages stdout (magicNumberFor codec)
    .ok
      { frameImages := frameImages
        errorCalls :=
          if frameImages.length < totalFrames then
            [notEnoughFramesMsg totalFrames frameImages.length]
          else []
        proceedsToEffect := true }

/-- C6: whenever the number of extracted frame buffers is strictly less
than `totalFrames`, the error handler receives exactly one message naming
the expected and actual counts and suggesting the `-l` effect-length
option; the condition is non-fatal: the extracted frames are kept and
processing proceeds into `DoEffect`.  When the extracted count is at least
`totalFrames`, the error handler is not invoked. -/
theorem insufficient_frames_reported_not_fatal
    (codec : FrameCodec) (totalFrames : Nat) (stdout : List Nat) :
    ((extractFrameImages stdout (magicNumberFor codec)).length < totalFrames →
      OnFfmpegFramesOutputFinished codec totalFrames none stdout
        = .ok
          { frameImages := extractFrameImages stdout (magicNumberFor codec)
            errorCalls :=
              [notEnoughFramesMsg totalFrames
                (extractFrameImages stdout (magicNumberFor codec)).length]
            proceedsToEffect := true }) ∧
    (totalFrames ≤ (extractFrameImages stdout (magicNumberFor codec)).length →
      OnFfmpegFramesOutputFinished codec totalFrames none stdout
        = .ok
          { frameImages := extractFrameImages stdout (magicNumberFor codec)
            errorCalls := []
            proceedsToEffect := true }) := by
  constructor
  · intro hlt
    unfold OnFfmpegFramesOutputFinished
    simp only [if_pos hlt]
  · intro hge
    unfold OnFfmpegFramesOutputFinished
    simp only [if_neg (Nat.not_lt.mpr hge)]

theorem insufficient_frames_reported_not_fatal_witness :
    OnFfmpegFramesOutputFinished .mjpeg 2 none [0xff, 0xd8, 0xff, 5]
      = .ok
        { frameImages := extractFrameImages [0xff, 0xd8, 0xff, 5] (magicNumberFor .mjpeg)
          errorCalls :=
            [notEnoughFramesMsg 2
              (extractFrameImages [0xff, 0xd8, 0xff, 5] (magicNumberFor .mjpeg)).length]
          proceedsToEffect := true } ∧
    OnFfmpegFramesOutputFinished .mjpeg 1 none [0xff, 0xd8, 0xff, 5]
      = .ok
        { frameImages := extractFrameImages [0xff, 0xd8, 0xff, 5] (magicNumberFor .mjpeg)
          errorCalls := []
          proceedsToEffect := true } :=
  ⟨(insufficient_frames_reported_not_fatal .mjpeg 2 [0xff, 0xd8, 0xff, 5]).1 (by decide),
    (insufficient_frames_reported_not_fatal .mjpeg 1 [0xff, 0xd8, 0xff, 5]).2 (by decide)⟩

/-! ## `OnEffectError` (`blueline.ts`) -/

/-- An observable action taken while handling an asynchronous effect
error. -/
inductive EffectAction where
  | stdinEnd
  | errorHandlerCall (e : String)
  | throwException (e : String)
deriving DecidableEq, Repr

/-- `OnEffectError` (`blueline.ts`), the listener registered on the encoder
process's standard input by `this.ffmpegProc.stdin.on('error', ...)` in
`DoEffect`: if an error is present, call `this.ffmpegProc.stdin.end()` and
then `this.errorHandler(error)`, in that order; nothing is thrown. -/
def OnEffectError (error : Option String) : List EffectAction :=
  match error with
  | some e => [.stdinEnd, .errorHandlerCall e]
  | none => []

/-- C5: every write error on the encoder's standard input is routed to the
session's error-handler sink rather than thrown, and the encoder's input
stream is closed (`stdin.end()`) before the error is reported; this holds
for every such error. -/
theorem effect_error_closes_stdin_then_reports (e : String) :
    OnEffectError (some e) = [.stdinEnd, .errorHandlerCall e] ∧
    (∀ msg, EffectAction.throwException msg ∉ OnEffectError (some e)) ∧
    (OnEffectError (some e)).head? = some .stdinEnd := by
  refine ⟨rfl, ?_, rfl⟩
  intro msg hmem
  simp [OnEffectError] at hmem

/-! ## The `BlueLineGenerator` constructor (`blueline.ts`) -/

/-- `BlueLineGenerator.DEFAULT_MAX_BUFFER` (`blueline.ts`). -/
def DEFAULT_MAX_BUFFER : ℚ := 1024 * 1024 * 50

/-- `BlueLineGenerator.DEFAULT_LINE_COLOR` (`blueline.ts`):
`new Uint8Array([0, 194, 203])`. -/
def DEFAULT_LINE_COLOR : List Nat := [0, 194, 203]

/-- `BlueLineGenerator.DEFAULT_LENGTH` (`blueline.ts`). -/
def DEFAULT_LENGTH : ℚ := 10

/-- `BlueLineGenerator.DEFAULT_FRAME_CODEC` (`blueline.ts`). -/
def DEFAULT_FRAME_CODEC : String := "mjpeg"

/-- `BlueLineGenerator.DEFAULT_LINE_DIRECTION` (`blueline.ts`). -/
def DEFAULT_LINE_DIRECTION : String := "right"

/-- `BlueLineGenerator.DEFAULT_FRAMERATE` (`blueline.ts`). -/
def DEFAULT_FRAMERATE : ℚ := 25

/-- JavaScript truthiness test `!x` for an optional numeric option:
`undefined`/`null` (here `none`) and `0` are falsy. -/
def jsFalsyNum : Option ℚ → Bool
  | none => true
  | some q => q == 0

/-- The `BlueLineGeneratorOptions` record (`blueline.ts`).  String options
use `""` for both the empty string and `undefined` (both falsy); numeric
options are `Option ℚ` with `none` for `undefined`/`null`; `lineColor` is
`Option (List Nat)` because a present `Uint8Array` is always truthy, even
when empty. -/
structure BlueLineGeneratorOptions where
  input : String
  output : String
  ffmpegPath : String
  maxBuffer : Option ℚ
  length : Option ℚ
  lineDirection : String
  frameCodec : String
  lineColor : Option (List Nat)
  fps : Option ℚ
deriving DecidableEq, Repr

/-- The options record after the constructor has finished mutating it:
every field holds a concrete value. -/
structure ResolvedOptions where
  input : String
  output : String
  ffmpegPath : String
  maxBuffer : ℚ
  length : ℚ
  lineDirection : String
  frameCodec : String
  lineColor : List Nat
  fps : ℚ
deriving DecidableEq, Repr

/-- The `BlueLineGenerator` constructor (`blueline.ts`): throw
`'No input specified.'` / `'No output specified.'` for a falsy input or
output path, then replace every falsy (or, for the codec and direction,
invalid) option with its default. -/
def construct (options : BlueLineGeneratorOptions) :
    Except String ResolvedOptions :=
  if options.input = "" then .error "No input specified."
  else if options.output = "" then .error "No output specified."
  else
    .ok
      { input := options.input
        output := options.output
        ffmpegPath := if options.ffmpegPath = "" then "ffmpeg" else options.ffmpegPath
        maxBuffer :=
          if jsFalsyNum options.maxBuffer then DEFAULT_MAX_BUFFER
          else options.maxBuffer.getD 0
        frameCodec :=
          if options.frameCodec = "" ∨ options.frameCodec ∉ ["mjpeg", "png"] then
            DEFAULT_FRAME_CODEC
          else options.frameCodec
        length :=
          if jsFalsyNum options.length then DEFAULT_LENGTH
          else options.length.getD 0
        lineColor :=
          match options.lineColor with
          | none => DEFAULT_LINE_COLOR
          | some c => c
        lineDirection :=
          if options.lineDirection = "" ∨
              options.lineDirection ∉ ["left", "right", "up", "down"] then
            DEFAULT_LINE_DIRECTION
          else options.lineDirection
        fps :=
          if jsFalsyNum options.fps then DEFAULT_FRAMERATE
          else options.fps.getD 0 }

/-- The `lineColor` the constructor settled on, when it did not throw. -/
def constructedLineColor (o : BlueLineGeneratorOptions) : Option (List Nat) :=
  match construct o with
  | .ok r => some r.lineColor
  | .error _ => none

/-- The `length` the constructor settled on, when it did not throw. -/
def constructedLength (o : BlueLineGeneratorOptions) : Option ℚ :=
  match construct o with
  | .ok r => some r.length
  | .error _ => none

/-- The `fps` the constructor settled on, when it did not throw. -/
def constructedFps (o : BlueLineGeneratorOptions) : Option ℚ :=
  match construct o with
  | .ok r => some r.fps
  | .error _ => none

/-- The `maxBuffer` the constructor settled on, when it did not throw. -/
def constructedMaxBuffer (o : BlueLineGeneratorOptions) : Option ℚ :=
  match construct o with
  | .ok r => some r.maxBuffer
  | .error _ => none

/-- The `frameCodec` the constructor settled on, when it did not throw. -/
def constructedFrameCodec (o : BlueLineGeneratorOptions) : Option String :=
  match construct o with
  | .ok r => some r.frameCodec
  | .error _ => none

/-- The `lineDirection` the constructor settled on, when it did not throw. -/
def constructedLineDirection (o : BlueLineGeneratorOptions) : Option String :=
  match construct o with
  | .ok r => some r.lineDirection
  | .error _ => none

/-- The `ffmpegPath` the constructor settled on, when it did not throw. -/
def constructedFfmpegPath (o : BlueLineGeneratorOptions) : Option String :=
  match construct o with
  | .ok r => some r.ffmpegPath
  | .error _ => none

/-- C7: when the caller supplies no line color (a falsy `lineColor`
option), the constructor fills in the default line color, the
application-specific teal with RGB channels `(0, 194, 203)`. -/
theorem default_line_color_is_teal (o : BlueLineGeneratorOptions)
    (hin : o.input ≠ "") (hout : o.output ≠ "") (hcol : o.lineColor = none) :
    constructedLineColor o = some DEFAULT_LINE_COLOR ∧
    DEFAULT_LINE_COLOR = [0, 194, 203] := by
  refine ⟨?_, rfl⟩
  unfold constructedLineColor construct
  simp only [if_neg hin, if_neg hout, hcol]

theorem default_line_color_is_teal_witness :
    constructedLineColor
        { input := "in.mp4", output := "out.mp4", ffmpegPath := "",
          maxBuffer := none, length := none, lineDirection := "",
          frameCodec := "", lineColor := none, fps := none }
      = some DEFAULT_LINE_COLOR ∧
    DEFAULT_LINE_COLOR = [0, 194, 203] :=
  default_line_color_is_teal
    { input := "in.mp4", output := "out.mp4", ffmpegPath := "",
      maxBuffer := none, length := none, lineDirection := "",
      frameCodec := "", lineColor := none, fps := none }
    (by decide) (by decide) rfl

/-- C8: for every options record whose input path is missing/empty, or
whose output path is missing/empty, the constructor fails immediately with
`'No input specified.'` respectively `'No output specified.'` — it returns
the error without producing a resolved record, so nothing downstream (in
particular no subprocess spawn, which only `Generate` performs) can
happen. -/
theorem missing_input_or_output_rejected (o : BlueLineGeneratorOptions)
    (h : o.input = "" ∨ (o.input ≠ "" ∧ o.output = "")) :
    construct o
      = .error
        (if o.input = "" then "No input specified." else "No output specified.") := by
  rcases h with h1 | ⟨h1, h2⟩
  · unfold construct
    simp [h1]
  · unfold construct
    simp [h1, h2]

theorem missing_input_or_output_rejected_witness :
    construct
        { input := "", output := "out.mp4", ffmpegPath := "",
          maxBuffer := none, length := none, lineDirection := "",
          frameCodec := "", lineColor := none, fps := none }
      = .error "No input specified." ∧
    construct
        { input := "in.mp4", output := "", ffmpegPath := "",
          maxBuffer := none, length := none, lineDirection := "",
          frameCodec := "", lineColor := none, fps := none }
      = .error "No output specified." :=
  ⟨missing_input_or_output_rejected
      { input := "", output := "out.mp4", ffmpegPath := "",
        maxBuffer := none, length := none, lineDirection := "",
        frameCodec := "", lineColor := none, fps := none }
      (Or.inl rfl),
    missing_input_or_output_rejected
      { input := "in.mp4", output := "", ffmpegPath := "",
        maxBuffer := none, length := none, lineDirection := "",
        frameCodec := "", lineColor := none, fps := none }
      (Or.inr ⟨by decide, rfl⟩)⟩

/-- C9: the constructor treats every falsy value of the numeric options as
absent, each independently of all the others: `length = 0`, `fps = 0` or
`maxBuffer = 0` (like `undefined`/`null`) is silently replaced by its
corresponding default of 10 seconds, 25.0 fps or 50 MiB, whatever the
remaining options hold; and the same falsy (or invalid) test independently
selects the default codec, direction and ffmpeg path. -/
theorem falsy_options_get_defaults (o : BlueLineGeneratorOptions)
    (hin : o.input ≠ "") (hout : o.output ≠ "") :
    (jsFalsyNum o.length = true → constructedLength o = some DEFAULT_LENGTH) ∧
    (jsFalsyNum o.fps = true → constructedFps o = some DEFAULT_FRAMERATE) ∧
    (jsFalsyNum o.maxBuffer = true →
      constructedMaxBuffer o = some DEFAULT_MAX_BUFFER) ∧
    (o.frameCodec = "" ∨ o.frameCodec ∉ ["mjpeg", "png"] →
      constructedFrameCodec o = some DEFAULT_FRAME_CODEC) ∧
    (o.lineDirection = "" ∨ o.lineDirection ∉ ["left", "right", "up", "down"] →
      constructedLineDirection o = some DEFAULT_LINE_DIRECTION) ∧
    (o.ffmpegPath = "" → constructedFfmpegPath o = some "ffmpeg") ∧
    DEFAULT_LENGTH = 10 ∧ DEFAULT_FRAMERATE = 25 ∧
    DEFAULT_MAX_BUFFER = 1024 * 1024 * 50 := by
  refine ⟨?_, ?_, ?_, ?_, ?_, ?_, rfl, rfl, rfl⟩
  · intro hl
    unfold constructedLength construct
    rw [if_neg hin, if_neg hout]
    show some (if jsFalsyNum o.length then DEFAULT_LENGTH else o.length.getD 0)
      = some DEFAULT_LENGTH
    rw [if_pos hl]
  · intro hf
    unfold constructedFps construct
    rw [if_neg hin, if_neg hout]
    show some (if jsFalsyNum o.fps then DEFAULT_FRAMERATE else o.fps.getD 0)
      = some DEFAULT_FRAMERATE
    rw [if_pos hf]
  · intro hb
    unfold constructedMaxBuffer construct
    rw [if_neg hin, if_neg hout]
    show some (if jsFalsyNum o.maxBuffer then DEFAULT_MAX_BUFFER else o.maxBuffer.getD 0)
      = some DEFAULT_MAX_BUFFER
    rw [if_pos hb]
  · intro hc
    unfold constructedFrameCodec construct
    rw [if_neg hin, if_neg hout]
    show some
        (if o.frameCodec = "" ∨ o.frameCodec ∉ ["mjpeg", "png"] then
          DEFAULT_FRAME_CODEC
        else o.frameCodec)
      = some DEFAULT_FRAME_CODEC
    rw [if_pos hc]
  · intro hd
    unfold constructedLineDirection construct
    rw [if_neg hin, if_neg hout]
    show some
        (if o.lineDirection = "" ∨
            o.lineDirection ∉ ["left", "right", "up", "down"] then
          DEFAULT_LINE_DIRECTION
        else o.lineDirection)
      = some DEFAULT_LINE_DIRECTION
    rw [if_pos hd]
  · intro hp
    unfold constructedFfmpegPath construct
    rw [if_neg hin, if_neg hout]
    show some (if o.ffmpegPath = "" then "ffmpeg" else o.ffmpegPath)
      = some "ffmpeg"
    rw [if_pos hp]

theorem falsy_options_get_defaults_witness :
    constructedLength
        { input := "in.mp4", output := "out.mp4", ffmpegPath := "/opt/ffmpeg",
          maxBuffer := some 1024, length := some 0, lineDirection := "up",
          frameCodec := "png", lineColor := some [1, 2, 3], fps := some 30 }
      = some DEFAULT_LENGTH ∧
    constructedFps
        { input := "in.mp4", output := "out.mp4", ffmpegPath := "/opt/ffmpeg",
          maxBuffer := some 1024, length := some 5, lineDirection := "up",
          frameCodec := "png", lineColor := some [1, 2, 3], fps := some 0 }
      = some DEFAULT_FRAMERATE ∧
    constructedMaxBuffer
        { input := "in.mp4", output := "out.mp4", ffmpegPath := "/opt/ffmpeg",
          maxBuffer := some 0, length := some 5, lineDirection := "up",
          frameCodec := "png", lineColor := some [1, 2, 3], fps := some 30 }
      = some DEFAULT_MAX_BUFFER ∧
    constructedFrameCodec
        { input := "in.mp4", output := "out.mp4", ffmpegPath := "/opt/ffmpeg",
          maxBuffer := some 1024, length := some 5, lineDirection := "up",
          frameCodec := "gif", lineColor := some [1, 2, 3], fps := some 30 }
      = some DEFAULT_FRAME_CODEC ∧
    constructedLineDirection
        { input := "in.mp4", output := "out.mp4", ffmpegPath := "/opt/ffmpeg",
          maxBuffer := some 1024, length := some 5, lineDirection := "diagonal",
          frameCodec := "png", lineColor := some [1, 2, 3], fps := some 30 }
      = some DEFAULT_LINE_DIRECTION ∧
    constructedFfmpegPath
        { input := "in.mp4", output := "out.mp4", ffmpegPath := "",
          maxBuffer := some 1024, length := some 5, lineDirection := "up",
          frameCodec := "png", lineColor := some [1, 2, 3], fps := some 30 }
      = some "ffmpeg" ∧
    DEFAULT_LENGTH = 10 ∧ DEFAULT_FRAMERATE = 25 ∧
    DEFAULT_MAX_BUFFER = 1024 * 1024 * 50 :=
  ⟨(falsy_options_get_defaults
      { input := "in.mp4", output := "out.mp4", ffmpegPath := "/opt/ffmpeg",
        maxBuffer := some 1024, length := some 0, lineDirection := "up",
        frameCodec := "png", lineColor := some [1, 2, 3], fps := some 30 }
      (by decide) (by decide)).1 (by decide),
    (falsy_options_get_defaults
      { input := "in.mp4", output := "out.mp4", ffmpegPath := "/opt/ffmpeg",
        maxBuffer := some 1024, length := some 5, lineDirection := "up",
        frameCodec := "png", lineColor := some [1, 2, 3], fps := some 0 }
      (by decide) (by decide)).2.1 (by decide),
    (falsy_options_get_defaults
      { input := "in.mp4", output := "out.mp4", ffmpegPath := "/opt/ffmpeg",
        maxBuffer := some 0, length := some 5, lineDirection := "up",
        frameCodec := "png", lineColor := some [1, 2, 3], fps := some 30 }
      (by decide) (by decide)).2.2.1 (by decide),
    (falsy_options_get_defaults
      { input := "in.mp4", output := "out.mp4", ffmpegPath := "/opt/ffmpeg",
        maxBuffer := some 1024, length := some 5, lineDirection := "up",
        frameCodec := "gif", lineColor := some [1, 2, 3], fps := some 30 }
      (by decide) (by decide)).2.2.2.1 (by decide),
    (falsy_options_get_defaults
      { input := "in.mp4", output := "out.mp4", ffmpegPath := "/opt/ffmpeg",
        maxBuffer := some 1024, length := some 5, lineDirection := "diagonal",
        frameCodec := "png", lineColor := some [1, 2, 3], fps := some 30 }
      (by decide) (by decide)).2.2.2.2.1 (by decide),
    (falsy_options_get_defaults
      { input := "in.mp4", output := "out.mp4", ffmpegPath := "",
        maxBuffer := some 1024, length := some 5, lineDirection := "up",
        frameCodec := "png", lineColor := some [1, 2, 3], fps := some 30 }
      (by decide) (by decide)).2.2.2.2.2.1 rfl,
    (falsy_options_get_defaults
      { input := "in.mp4", output := "out.mp4", ffmpegPath := "/opt/ffmpeg",
        maxBuffer := some 1024, length := some 0, lineDirection := "up",
        frameCodec := "png", lineColor := some [1, 2, 3], fps := some 30 }
      (by decide) (by decide)).2.2.2.2.2.2⟩

/-! ## `RgbToHexString` (`color.ts`) -/

/-- A lowercase base-16 digit character, as produced by JavaScript
`Number.toString(16)`: `0`–`9` then `a`–`f`. -/
def hexDigitChar (n : Nat) : Char :=
  if n < 10 then Char.ofNat (48 + n) else Char.ofNat (87 + n)

/-- `num.toString(16)` digit list for a natural number: most significant
digit first, lowercase, no padding.  The first argument is fuel making the
recursion structural; `n + 1` is always enough for input `n`. -/
def natToHexAux : Nat → Nat → List Char
  | 0, _ => []
  | fuel + 1, n =>
    if n < 16 then [hexDigitChar n]
    else natToHexAux fuel (n / 16) ++ [hexDigitChar (n % 16)]

/-- `num.toString(16)` of JavaScript for a natural number. -/
def natToHex (n : Nat) : String :=
  String.mk (natToHexAux (n + 1) n)

/-- The inner helper `zeroPadNumber` of `RgbToHexString` (`color.ts`):
left-pad with `'0'` up to the desired length. -/
def zeroPadNumber (num : String) (desired_length : Nat) : String :=
  if num.length < desired_length then
    String.mk (List.replicate (desired_length - num.length) '0') ++ num
  else num

/-- `RgbToHexString` (`color.ts`): each channel rendered in base 16,
zero-padded to two digits, concatenated in red, green, blue order, with no
`'#'` prefix. -/
def RgbToHexString (red green blue : Nat) : String :=
  zeroPadNumber (natToHex red) 2 ++ zeroPadNumber (natToHex green) 2 ++
    zeroPadNumber (natToHex blue) 2

/-- Whether a character is a base-16 digit as emitted by `natToHex`:
`'0'`–`'9'` or `'a'`–`'f'`. -/
def isHexDigitChar (c : Char) : Bool :=
  (48 ≤ c.toNat && c.toNat ≤ 57) || (97 ≤ c.toNat && c.toNat ≤ 102)

/-- The numeric value of a base-16 digit character. -/
def hexCharVal (c : Char) : Nat :=
  if 97 ≤ c.toNat then c.toNat - 87 else c.toNat - 48

/-- Parse a big-endian list of base-16 digit characters back to a number. -/
def parseHexChars (l : List Char) : Nat :=
  l.foldl (fun a c => 16 * a + hexCharVal c) 0

set_option maxRecDepth 8192 in
/-- Each padded channel is two hex characters and parses back to its
value, for every byte. -/
theorem channel_roundtrip :
    ∀ n, n < 256 →
      (zeroPadNumber (natToHex n) 2).data.length = 2 ∧
      (zeroPadNumber (natToHex n) 2).data.all isHexDigitChar = true ∧
      parseHexChars (zeroPadNumber (natToHex n) 2).data = n := by
  decide

/-- C10: for every integer RGB triple with each channel in `0..255`,
`RgbToHexString` returns a string of exactly 6 hexadecimal characters with
no `'#'` prefix, formed by zero-padding each channel's base-16
representation to two digits and concatenating in red, green, blue order;
parsing the three two-character groups back as base-16 integers recovers
the original channels. -/
theorem rgb_hex_string_roundtrip (r g b : Nat)
    (hr : r ≤ 255) (hg : g ≤ 255) (hb : b ≤ 255) :
    (RgbToHexString r g b).length = 6 ∧
    (RgbToHexString r g b).data.all isHexDigitChar = true ∧
    '#' ∉ (RgbToHexString r g b).data ∧
    parseHexChars ((RgbToHexString r g b).data.take 2) = r ∧
    parseHexChars (((RgbToHexString r g b).data.drop 2).take 2) = g ∧
    parseHexChars ((RgbToHexString r g b).data.drop 4) = b := by
  obtain ⟨hrl, hrh, hrp⟩ := channel_roundtrip r (by omega)
  obtain ⟨hgl, hgh, hgp⟩ := channel_roundtrip g (by omega)
  obtain ⟨hbl, hbh, hbp⟩ := channel_roundtrip b (by omega)
  set A := (zeroPadNumber (natToHex r) 2).data with hA
  set B := (zeroPadNumber (natToHex g) 2).data with hB
  set C := (zeroPadNumber (natToHex b) 2).data with hC
  have hdata1 : (RgbToHexString r g b).data = (A ++ B) ++ C := rfl
  have hdata2 : (RgbToHexString r g b).data = A ++ (B ++ C) := by
    rw [hdata1, List.append_assoc]
  refine ⟨?_, ?_, ?_, ?_, ?_, ?_⟩
  · show (RgbToHexString r g b).data.length = 6
    rw [hdata1]
    simp only [List.length_append]
    omega
  · rw [hdata1]
    simp only [List.all_append, hrh, hgh, hbh, Bool.and_self]
  · intro hmem
    have hhex : isHexDigitChar '#' = false := by decide
    rw [hdata1] at hmem
    simp only [List.mem_append] at hmem
    rcases hmem with (hmem | hmem) | hmem
    · exact absurd (List.all_eq_true.mp hrh _ hmem) (by decide)
    · exact absurd (List.all_eq_true.mp hgh _ hmem) (by decide)
    · exact absurd (List.all_eq_true.mp hbh _ hmem) (by decide)
  · rw [hdata2, ← hrl, List.take_left]
    exact hrp
  · have hdrop : (A ++ (B ++ C)).drop 2 = B ++ C := by
      rw [← hrl]
      exact List.drop_left A (B ++ C)
    have htake : (B ++ C).take 2 = B := by
      rw [← hgl]
      exact List.take_left B C
    rw [hdata2, hdrop, htake]
    exact hgp
  · have h4 : (A ++ B).length = 4 := by
      rw [List.length_append]
      omega
    rw [hdata1, ← h4, List.drop_left]
    exact hbp

theorem rgb_hex_string_roundtrip_witness :
    (RgbToHexString 0 194 203).length = 6 ∧
    (RgbToHexString 0 194 203).data.all isHexDigitChar = true ∧
    '#' ∉ (RgbToHexString 0 194 203).data ∧
    parseHexChars ((RgbToHexString 0 194 203).data.take 2) = 0 ∧
    parseHexChars (((RgbToHexString 0 194 203).data.drop 2).take 2) = 194 ∧
    parseHexChars ((RgbToHexString 0 194 203).data.drop 4) = 203 :=
  rgb_hex_string_roundtrip 0 194 203 (by decide) (by decide) (by decide)

end BlueLine
